import Mathlib

/-!
Shallow embedding of the pysol-solitaire engine (src/constants.py,
src/models.py, src/controller.py) and verification of its specification.

UI-only concerns (Qt geometry, animation, painting, z-ordering) are not part
of the engine state and are omitted; `current_pile` object references are
modelled as `(PileKind × Nat)` slots resolved against the game state, and
Python object identity of `CardItem`s is modelled by a numeric `id` field
(distinct objects are structurally distinct).
-/

namespace Solitaire

/-- The four suits, in the order of `constants.SUITS`. -/
inductive Suit
  | clubs
  | diamonds
  | hearts
  | spades
deriving DecidableEq, Repr

/-- The thirteen ranks, in the order of `constants.RANKS`
(`"ace", "2", ..., "10", "jack", "queen", "king"`). -/
inductive Rank
  | ace
  | n2
  | n3
  | n4
  | n5
  | n6
  | n7
  | n8
  | n9
  | n10
  | jack
  | queen
  | king
deriving DecidableEq, Repr

/-- `constants.SUITS`. -/
def SUITS : List Suit := [Suit.clubs, Suit.diamonds, Suit.hearts, Suit.spades]

/-- `constants.RANKS`. -/
def RANKS : List Rank :=
  [Rank.ace, Rank.n2, Rank.n3, Rank.n4, Rank.n5, Rank.n6, Rank.n7, Rank.n8,
   Rank.n9, Rank.n10, Rank.jack, Rank.queen, Rank.king]

/-- `RANKS.index(r)` (always succeeds because every rank is listed). -/
def rank_index (r : Rank) : Nat := RANKS.indexOf r

/-- A card's color, `"red"` or `"black"`. -/
inductive Color
  | red
  | black
deriving DecidableEq, Repr

/-- The four pile kinds of `models.Pile.kind`. -/
inductive PileKind
  | tableau
  | foundation
  | stock
  | waste
deriving DecidableEq, Repr

/-- Engine state of `card.CardItem`: suit, rank, `_face_up`, and
`current_pile` as a pile slot.  `id` models Python object identity. -/
structure Card where
  id : Nat
  suit : Suit
  rank : Rank
  face_up : Bool
  currentPile : Option (PileKind × Nat)
deriving DecidableEq, Repr

/-- `CardItem.color`: red iff the suit is hearts or diamonds. -/
def Card.color (c : Card) : Color :=
  if c.suit == Suit.hearts || c.suit == Suit.diamonds then Color.red else Color.black

/-- Engine state of `models.Pile` (anchor/placeholder/spacing are geometry). -/
structure Pile where
  kind : PileKind
  index : Nat
  cards : List Card
deriving DecidableEq, Repr

/-- `Pile.add_cards`: append each card and set its `current_pile` to this pile. -/
def Pile.add_cards (p : Pile) (cs : List Card) : Pile :=
  { p with cards := p.cards ++ cs.map (fun c => { c with currentPile := some (p.kind, p.index) }) }

/-- `Pile.top_card`: the last card, if any. -/
def Pile.top_card (p : Pile) : Option Card := p.cards.getLast?

/-- `Pile.remove_cards_from`: if `card` is absent return `[]` and leave the
pile unchanged; otherwise split at the first occurrence, detach the suffix
(membership cleared) and keep the prefix. -/
def Pile.remove_cards_from (p : Pile) (card : Card) : List Card × Pile :=
  if card ∈ p.cards then
    let idx := p.cards.indexOf card
    ((p.cards.drop idx).map (fun c => { c with currentPile := none }),
     { p with cards := p.cards.take idx })
  else ([], p)

/-- `GameController._can_stack_on`, transcribed.  Rank comparisons are over
`Int` as in Python (so `rank_index top - 1` can be `-1` for an ace). -/
def can_stack_on (bottom_card : Card) (top_pile : Pile) : Bool :=
  match top_pile.kind with
  | PileKind.tableau =>
    if top_pile.cards.isEmpty then bottom_card.rank == Rank.king
    else
      match top_pile.top_card with
      | none => false
      | some top_card =>
        bottom_card.color != top_card.color &&
          ((rank_index bottom_card.rank : Int) == (rank_index top_card.rank : Int) - 1)
  | PileKind.foundation =>
    if top_pile.cards.isEmpty then bottom_card.rank == Rank.ace
    else
      match top_pile.top_card with
      | none => false
      | some top_card =>
        bottom_card.suit == top_card.suit &&
          ((rank_index bottom_card.rank : Int) == (rank_index top_card.rank : Int) + 1)
  | PileKind.stock => false
  | PileKind.waste => false

/-- The drop-legality relation as the specification words it, written
independently of the control flow of `_can_stack_on`: a case split on the
destination kind and its top card. -/
def can_stack_on_spec (card : Card) (pile : Pile) : Bool :=
  match pile.kind, pile.top_card with
  | PileKind.tableau, none => card.rank == Rank.king
  | PileKind.tableau, some top =>
    card.color != top.color &&
      ((rank_index card.rank : Int) == (rank_index top.rank : Int) - 1)
  | PileKind.foundation, none => card.rank == Rank.ace
  | PileKind.foundation, some top =>
    card.suit == top.suit &&
      ((rank_index card.rank : Int) == (rank_index top.rank : Int) + 1)
  | PileKind.stock, _ => false
  | PileKind.waste, _ => false

/-- A pile's card list is empty iff it has no top card. -/
lemma Pile.top_card_eq_none_iff (p : Pile) : p.top_card = none ↔ p.cards = [] := by
  simp [Pile.top_card, List.getLast?_eq_none_iff]

/-- Claim C1: `can_stack_on` decides drop legality exactly as the spec's case
split says: tableau — empty accepts only a king, otherwise opposite color and
rank index one below the top card's; foundation — empty accepts only an ace,
otherwise same suit and rank index one above the top card's; stock and waste —
never legal. -/
theorem C1_can_stack_on_matches_spec (card : Card) (pile : Pile) :
    can_stack_on card pile = can_stack_on_spec card pile := by
  rcases pile with ⟨k, i, cs⟩
  cases cs with
  | nil => cases k <;> simp [can_stack_on, can_stack_on_spec, Pile.top_card]
  | cons a l =>
    obtain ⟨t, ht⟩ := Option.isSome_iff_exists.mp
      (List.getLast?_isSome.mpr (by simp : a :: l ≠ []))
    cases k <;> simp [can_stack_on, can_stack_on_spec, Pile.top_card, ht]

/-- The loop body of the tableau branch of
`GameController.get_draggable_group_for`: scan the cards above `card`
(`top` is `group[-1]`, `bottom` the next card up); a same-color pair or a
rank step other than one-lower empties the whole group. -/
def group_scan : Card → List Card → List Card → List Card
  | _, [], group => group
  | top, bottom :: rest, group =>
    if bottom.color == top.color then []
    else if !((rank_index bottom.rank : Int) == (rank_index top.rank : Int) - 1) then []
    else group_scan bottom rest (group ++ [bottom])

/-- `GameController.get_draggable_group_for`, given the card's current pile.
Result `none` models the `ValueError` that `pile.cards.index(card)` raises on
a tableau pile not containing the card (unreachable in play). -/
def get_draggable_group_for (pile : Pile) (card : Card) : Option (List Card) :=
  match pile.kind with
  | PileKind.waste =>
    some (match pile.top_card with
      | some t => if t == card then [card] else []
      | none => [])
  | PileKind.tableau =>
    if !card.face_up then some []
    else
      match pile.cards.indexOf? card with
      | none => none
      | some idx => some (group_scan card (pile.cards.drop (idx + 1)) [card])
  | PileKind.foundation =>
    some (match pile.top_card with
      | some t => if t == card then [card] else []
      | none => [])
  | PileKind.stock => some []

/-- A run is valid as the spec words it: every consecutive pair
`(top, bottom)` scanning upward alternates color and descends by exactly one
rank index. -/
def valid_run_spec : List Card → Bool
  | a :: b :: rest =>
    (b.color != a.color && ((rank_index b.rank : Int) == (rank_index a.rank : Int) - 1))
      && valid_run_spec (b :: rest)
  | _ => true

/-- The draggable group as the spec words it: singleton top card on waste and
foundation, nothing on stock, and on a tableau the whole contiguous run from
the card to the top — all-or-nothing on validity of the run. -/
def draggable_group_spec (pile : Pile) (card : Card) : List Card :=
  match pile.kind with
  | PileKind.waste => if pile.top_card == some card then [card] else []
  | PileKind.foundation => if pile.top_card == some card then [card] else []
  | PileKind.stock => []
  | PileKind.tableau =>
    if !card.face_up then []
    else
      let run := pile.cards.drop (pile.cards.indexOf card)
      if valid_run_spec run then run else []

/-- Closed form of the scanning loop: it returns the accumulator followed by
the remaining run when every pair validates, and empties otherwise. -/
lemma group_scan_eq (rest : List Card) : ∀ (top : Card) (acc : List Card),
    group_scan top rest acc = if valid_run_spec (top :: rest) then acc ++ rest else [] := by
  induction rest with
  | nil => intro top acc; simp [group_scan, valid_run_spec]
  | cons b rs ih =>
    intro top acc
    show (if b.color == top.color then []
          else if !((rank_index b.rank : Int) == (rank_index top.rank : Int) - 1) then []
          else group_scan b rs (acc ++ [b])) = _
    rcases hc : b.color == top.color with _ | _
    · rcases hr : ((rank_index b.rank : Int) == (rank_index top.rank : Int) - 1) with _ | _
      · have hpair : (b.color != top.color &&
            ((rank_index b.rank : Int) == (rank_index top.rank : Int) - 1)) = false := by
          simp [hr]
        simp [valid_run_spec, hpair]
      · have hpair : (b.color != top.color &&
            ((rank_index b.rank : Int) == (rank_index top.rank : Int) - 1)) = true := by
          simp [bne, hc, hr]
        have hrec := ih b (acc ++ [b])
        simp [valid_run_spec, hpair, hrec, List.append_assoc]
    · have hpair : (b.color != top.color &&
          ((rank_index b.rank : Int) == (rank_index top.rank : Int) - 1)) = false := by
        simp [bne, hc]
      simp [valid_run_spec, hpair]

/-- `indexOf?` succeeds on a member and agrees with `indexOf`. -/
lemma indexOf?_eq_some_indexOf {α : Type} [DecidableEq α] (l : List α) (a : α) (h : a ∈ l) :
    l.indexOf? a = some (l.indexOf a) := by
  induction l with
  | nil => simp at h
  | cons b t ih =>
    by_cases hb : b = a
    · subst hb
      simp [List.indexOf?_cons, List.indexOf_cons_self]
    · have ha : a ∈ t := by
        rcases List.mem_cons.mp h with h1 | h1
        · exact absurd h1.symm hb
        · exact h1
      simp [List.indexOf?_cons, hb, List.indexOf_cons_ne _ hb, ih ha, Nat.succ_eq_add_one]

/-- Dropping at the first occurrence of a member starts with that member. -/
lemma drop_indexOf_eq_cons {α : Type} [DecidableEq α] (l : List α) (a : α) (h : a ∈ l) :
    l.drop (l.indexOf a) = a :: l.drop (l.indexOf a + 1) := by
  have hlt : l.indexOf a < l.length := List.indexOf_lt_length.mpr h
  rw [List.drop_eq_getElem_cons hlt]
  rw [List.getElem_indexOf hlt]

/-- Claim C2: for a card in its current pile, `get_draggable_group_for`
computes exactly the spec's group: singleton top on waste and foundation,
nothing on stock, nothing for a face-down tableau card, and on a tableau the
full run from the card to the top iff every consecutive pair alternates color
and descends by one rank — all-or-nothing. -/
theorem C2_draggable_group_matches_spec (pile : Pile) (card : Card)
    (h : card ∈ pile.cards) :
    get_draggable_group_for pile card = some (draggable_group_spec pile card) := by
  rcases pile with ⟨k, i, cs⟩
  cases k with
  | waste =>
    simp only [get_draggable_group_for, draggable_group_spec]
    cases ht : Pile.top_card ⟨PileKind.waste, i, cs⟩ <;> simp [ht, beq_iff_eq]
  | foundation =>
    simp only [get_draggable_group_for, draggable_group_spec]
    cases ht : Pile.top_card ⟨PileKind.foundation, i, cs⟩ <;> simp [ht, beq_iff_eq]
  | stock => simp [get_draggable_group_for, draggable_group_spec]
  | tableau =>
    simp only [get_draggable_group_for, draggable_group_spec]
    by_cases hf : card.face_up
    · have hmem : card ∈ cs := h
      rw [indexOf?_eq_some_indexOf cs card hmem]
      simp only [hf, Bool.not_true, Bool.false_eq_true, if_false]
      rw [group_scan_eq]
      simp only [List.singleton_append]
      rw [show card :: cs.drop (cs.indexOf card + 1) = cs.drop (cs.indexOf card) from
        (drop_indexOf_eq_cons cs card hmem).symm]
    · simp [hf]

/-- Witness for C2 at a concrete pile: the face-up 5 of hearts sitting under
the 4 of spades in a tableau pile drags as the two-card run. -/
theorem C2_draggable_group_matches_spec_witness :
    (⟨3, Suit.hearts, Rank.n5, true, some (PileKind.tableau, 0)⟩ : Card) ∈
        (⟨PileKind.tableau, 0,
          [⟨3, Suit.hearts, Rank.n5, true, some (PileKind.tableau, 0)⟩,
           ⟨4, Suit.spades, Rank.n4, true, some (PileKind.tableau, 0)⟩]⟩ : Pile).cards ∧
      get_draggable_group_for
          ⟨PileKind.tableau, 0,
            [⟨3, Suit.hearts, Rank.n5, true, some (PileKind.tableau, 0)⟩,
             ⟨4, Suit.spades, Rank.n4, true, some (PileKind.tableau, 0)⟩]⟩
          ⟨3, Suit.hearts, Rank.n5, true, some (PileKind.tableau, 0)⟩ =
        some (draggable_group_spec
          ⟨PileKind.tableau, 0,
            [⟨3, Suit.hearts, Rank.n5, true, some (PileKind.tableau, 0)⟩,
             ⟨4, Suit.spades, Rank.n4, true, some (PileKind.tableau, 0)⟩]⟩
          ⟨3, Suit.hearts, Rank.n5, true, some (PileKind.tableau, 0)⟩) :=
  ⟨by decide, C2_draggable_group_matches_spec _ _ (by decide)⟩

/-- Engine state of `GameController`: the piles and the `won` flag
(`deck` only exists between `build_deck` and `deal` and is passed
explicitly to `deal` below). -/
structure GameState where
  tableau : List Pile
  foundations : List Pile
  stock : Pile
  waste : Pile
  won : Bool
deriving DecidableEq, Repr

/-- Resolve a `current_pile` slot against the game state (the Python code
holds direct object references; stock and waste are single piles). -/
def GameState.get_pile? (st : GameState) : PileKind × Nat → Option Pile
  | (PileKind.tableau, i) => st.tableau[i]?
  | (PileKind.foundation, i) => st.foundations[i]?
  | (PileKind.stock, _) => some st.stock
  | (PileKind.waste, _) => some st.waste

/-- Write a pile back to its slot. -/
def GameState.set_pile (st : GameState) : PileKind × Nat → Pile → GameState
  | (PileKind.tableau, i), p => { st with tableau := st.tableau.set i p }
  | (PileKind.foundation, i), p => { st with foundations := st.foundations.set i p }
  | (PileKind.stock, _), p => { st with stock := p }
  | (PileKind.waste, _), p => { st with waste := p }

/-- `GameController.check_win`: a no-op once `won`; otherwise win iff every
foundation pile holds exactly 13 cards (`show_celebration` is UI only). -/
def check_win (st : GameState) : GameState :=
  if st.won then st
  else if st.foundations.all (fun f => f.cards.length == 13) then { st with won := true }
  else st

/-- `top_card.set_face_up(True)` on a pile: flip the last card face-up
(no-op on an empty pile). -/
def Pile.set_top_face_up (p : Pile) : Pile :=
  match p.cards.getLast? with
  | none => p
  | some t => { p with cards := p.cards.dropLast ++ [{ t with face_up := true }] }

/-- `GameController.on_stock_clicked`: draw the top stock card to the waste
face-up; on an empty stock recycle the waste, reversed and face-down, back to
the stock; do nothing when both are empty. -/
def on_stock_clicked (st : GameState) : GameState :=
  if st.stock.cards.isEmpty then
    if st.waste.cards.isEmpty then st
    else
      -- moving = reversed(waste); each set face-down and re-homed to stock
      let moving := st.waste.cards.reverse.map
        (fun c => { c with face_up := false, currentPile := some (PileKind.stock, 0) })
      let st1 := { st with
        waste := { st.waste with cards := [] },
        stock := st.stock.add_cards moving }
      check_win st1
  else
    match st.stock.cards.getLast? with
    | none => st  -- unreachable: the stock is non-empty here
    | some card =>
      -- card = stock.cards.pop(); waste.add_cards([card]); card.set_face_up(True)
      let st1 := { st with
        stock := { st.stock with cards := st.stock.cards.dropLast },
        waste := (st.waste.add_cards [card]).set_top_face_up }
      check_win st1

/-- `check_win` touches only the `won` flag. -/
lemma check_win_stock (st : GameState) : (check_win st).stock = st.stock := by
  unfold check_win; split
  · rfl
  · split <;> rfl

lemma check_win_waste (st : GameState) : (check_win st).waste = st.waste := by
  unfold check_win; split
  · rfl
  · split <;> rfl

lemma check_win_tableau (st : GameState) : (check_win st).tableau = st.tableau := by
  unfold check_win; split
  · rfl
  · split <;> rfl

lemma check_win_foundations (st : GameState) : (check_win st).foundations = st.foundations := by
  unfold check_win; split
  · rfl
  · split <;> rfl

/-- Claim C3: `on_stock_clicked` is the spec's three-way case split: non-empty
stock moves its top card, face-up, to the waste tail and changes no other
pile; empty stock with non-empty waste moves the whole waste, reversed and
face-down, to the stock and empties the waste; both empty changes nothing.
(`currentPile` updates record the destination pile's own slot, as
`Pile.add_cards` does.) -/
theorem C3_on_stock_clicked_cases (st : GameState) :
    (∀ c, st.stock.cards.getLast? = some c →
        (on_stock_clicked st).stock.cards = st.stock.cards.dropLast ∧
        (on_stock_clicked st).waste.cards = st.waste.cards ++
          [{ c with face_up := true, currentPile := some (st.waste.kind, st.waste.index) }] ∧
        (on_stock_clicked st).tableau = st.tableau ∧
        (on_stock_clicked st).foundations = st.foundations) ∧
    (st.stock.cards = [] → st.waste.cards ≠ [] →
        (on_stock_clicked st).stock.cards = st.waste.cards.reverse.map
          (fun c =>
            { c with face_up := false, currentPile := some (st.stock.kind, st.stock.index) }) ∧
        (∀ c ∈ (on_stock_clicked st).stock.cards, c.face_up = false) ∧
        (on_stock_clicked st).waste.cards = [] ∧
        (on_stock_clicked st).tableau = st.tableau ∧
        (on_stock_clicked st).foundations = st.foundations) ∧
    (st.stock.cards = [] → st.waste.cards = [] → on_stock_clicked st = st) := by
  refine ⟨?_, ?_, ?_⟩
  · intro c hc
    have hne : st.stock.cards ≠ [] := by
      intro hnil; rw [hnil] at hc; simp at hc
    have hse : st.stock.cards.isEmpty = false := by
      simp [List.isEmpty_iff, hne]
    simp only [on_stock_clicked, hse, Bool.false_eq_true, if_false, hc]
    simp [check_win_stock, check_win_waste, check_win_tableau, check_win_foundations,
      Pile.add_cards, Pile.set_top_face_up]
  · intro hs hw
    have hse : st.stock.cards.isEmpty = true := by simp [List.isEmpty_iff, hs]
    have hwe : st.waste.cards.isEmpty = false := by simp [List.isEmpty_iff, hw]
    simp only [on_stock_clicked, hse, if_true, hwe, Bool.false_eq_true, if_false]
    simp only [check_win_stock, check_win_waste, check_win_tableau, check_win_foundations]
    refine ⟨?_, ?_, by trivial, by trivial, by trivial⟩
    · simp [Pile.add_cards, hs, List.map_map, Function.comp]
    · intro c hmem
      simp only [Pile.add_cards, hs, List.nil_append, List.map_map] at hmem
      rcases List.mem_map.mp hmem with ⟨d, _, rfl⟩
      rfl
  · intro hs hw
    have hse : st.stock.cards.isEmpty = true := by simp [List.isEmpty_iff, hs]
    have hwe : st.waste.cards.isEmpty = true := by simp [List.isEmpty_iff, hw]
    simp [on_stock_clicked, hse, hwe]

/-- A concrete one-card-stock state used to witness C3. -/
def draw_example_state : GameState :=
  GameState.mk [] []
    ⟨PileKind.stock, 0, [⟨0, Suit.clubs, Rank.ace, false, some (PileKind.stock, 0)⟩]⟩
    ⟨PileKind.waste, 0, []⟩ false

/-- Witness for C3 at a concrete state: one face-down card in the stock is
drawn face-up onto an empty waste, tableau and foundations untouched; an
all-empty state is left unchanged. -/
theorem C3_on_stock_clicked_cases_witness :
    ((on_stock_clicked draw_example_state).stock.cards =
        draw_example_state.stock.cards.dropLast ∧
      (on_stock_clicked draw_example_state).waste.cards =
        draw_example_state.waste.cards ++
          [{ (⟨0, Suit.clubs, Rank.ace, false, some (PileKind.stock, 0)⟩ : Card) with
              face_up := true,
              currentPile := some (draw_example_state.waste.kind,
                draw_example_state.waste.index) }] ∧
      (on_stock_clicked draw_example_state).tableau = draw_example_state.tableau ∧
      (on_stock_clicked draw_example_state).foundations =
        draw_example_state.foundations) :=
  (C3_on_stock_clicked_cases draw_example_state).1
    ⟨0, Suit.clubs, Rank.ace, false, some (PileKind.stock, 0)⟩ (by decide)

/-- Observable steps of `GameController.on_card_drag_released`, in the order
the code performs them. -/
inductive DropEvent
  | accepted
  | win_check
  | flip
  | reverted
deriving DecidableEq, Repr

/-- `target.add_cards(old_group)`: mutate the pile sitting at `ref`
(re-read from the current state, since source and target may alias). -/
def add_to_slot (st : GameState) (ref : PileKind × Nat) (cs : List Card) : GameState :=
  match st.get_pile? ref with
  | some p => st.set_pile ref (p.add_cards cs)
  | none => st

/-- The auto-flip that ends an accepted drop: if the source pile is a tableau
pile whose new top card is face-down, flip it face-up.  Returns the state and
whether a flip happened. -/
def auto_flip (st : GameState) (src_ref : PileKind × Nat) : GameState × Bool :=
  match st.get_pile? src_ref with
  | some sp =>
    if sp.kind == PileKind.tableau then
      match sp.top_card with
      | some t =>
        if !t.face_up then (st.set_pile src_ref sp.set_top_face_up, true)
        else (st, false)
      | none => (st, false)
    else (st, false)
  | none => (st, false)

/-- `GameController.on_card_drag_released`, transcribed over the game state.
`target_ref` stands for the pile `_find_target_pile` resolved under the drop
point (`none`: no pile under the pointer); geometry itself is UI.  The result
carries the engine state plus the ordered trace of observable steps.  `(st, [])`
models the early `return`s and the `ValueError` of a tableau index miss —
paths on which no mutation has happened. -/
def on_card_drag_released (st : GameState) (card : Card)
    (target_ref : Option (PileKind × Nat)) : GameState × List DropEvent :=
  match card.currentPile with
  | none => (st, [])
  | some src_ref =>
    match st.get_pile? src_ref with
    | none => (st, [])
    | some src_pile =>
      match get_draggable_group_for src_pile card with
      | none => (st, [])
      | some group =>
        match group with
        | [] => (st, [DropEvent.reverted])
        | g0 :: _ =>
          match target_ref with
          | none => (st, [DropEvent.reverted])
          | some tref =>
            match st.get_pile? tref with
            | none => (st, [DropEvent.reverted])
            | some target =>
              if can_stack_on g0 target then
                -- old_group = src_pile.remove_cards_from(card); target.add_cards(old_group)
                let rem := src_pile.remove_cards_from card
                let st1 := st.set_pile src_ref rem.2
                let st2 := add_to_slot st1 tref rem.1
                let st3 := check_win st2
                -- the auto-flip runs after check_win in the source
                let fl := auto_flip st3 src_ref
                (fl.1, [DropEvent.accepted, DropEvent.win_check] ++
                  (if fl.2 then [DropEvent.flip] else []))
              else (st, [DropEvent.reverted])

/-- Claim C5: a drop that resolves to the reverted outcome (empty draggable
group, no destination pile under the pointer, or an illegal stack) mutates no
pile: the engine state is returned untouched — card sequences, face-up flags
and all. -/
theorem C5_reverted_drop_changes_nothing (st : GameState) (card : Card)
    (target_ref : Option (PileKind × Nat))
    (h : (on_card_drag_released st card target_ref).2 = [DropEvent.reverted]) :
    (on_card_drag_released st card target_ref).1 = st := by
  rcases hcp : card.currentPile with _ | src_ref
  · simp [on_card_drag_released, hcp] at h
  · rcases hsp : st.get_pile? src_ref with _ | src_pile
    · simp [on_card_drag_released, hcp, hsp] at h
    · rcases hg : get_draggable_group_for src_pile card with _ | group
      · simp [on_card_drag_released, hcp, hsp, hg] at h
      · rcases group with _ | ⟨g0, grest⟩
        · simp [on_card_drag_released, hcp, hsp, hg]
        · rcases htr : target_ref with _ | tref
          · simp [on_card_drag_released, hcp, hsp, hg, htr]
          · rcases htp : st.get_pile? tref with _ | target
            · simp [on_card_drag_released, hcp, hsp, hg, htr, htp]
            · by_cases hcan : can_stack_on g0 target = true
              · exfalso
                simp only [on_card_drag_released, hcp, hsp, hg, htr, htp, hcan, if_true] at h
                repeat' split at h
                all_goals simp at h
              · simp [on_card_drag_released, hcp, hsp, hg, htr, htp, hcan]

/-- Witness for C5: dropping with no pile under the pointer reverts and
leaves the concrete one-card-stock state untouched. -/
theorem C5_reverted_drop_changes_nothing_witness :
    (on_card_drag_released draw_example_state
        ⟨0, Suit.clubs, Rank.ace, false, some (PileKind.stock, 0)⟩ none).2 =
      [DropEvent.reverted] ∧
    (on_card_drag_released draw_example_state
        ⟨0, Suit.clubs, Rank.ace, false, some (PileKind.stock, 0)⟩ none).1 =
      draw_example_state := by
  constructor
  · decide
  · exact C5_reverted_drop_changes_nothing draw_example_state
      ⟨0, Suit.clubs, Rank.ace, false, some (PileKind.stock, 0)⟩ none (by decide)

/-- `check_win` never clears a won flag. -/
lemma check_win_won_mono (st : GameState) (h : st.won = true) :
    (check_win st).won = true := by
  simp [check_win, h]

/-- `set_pile` never touches the won flag. -/
lemma set_pile_won (st : GameState) (r : PileKind × Nat) (p : Pile) :
    (st.set_pile r p).won = st.won := by
  rcases r with ⟨k, i⟩
  cases k <;> rfl

/-- `on_stock_clicked` never clears a won flag. -/
lemma on_stock_clicked_won_mono (st : GameState) (h : st.won = true) :
    (on_stock_clicked st).won = true := by
  unfold on_stock_clicked
  repeat' split
  all_goals simp [check_win, h]

/-- `add_to_slot` never touches the won flag. -/
lemma add_to_slot_won (st : GameState) (ref : PileKind × Nat) (cs : List Card) :
    (add_to_slot st ref cs).won = st.won := by
  unfold add_to_slot
  split <;> simp [set_pile_won]

/-- `auto_flip` never touches the won flag. -/
lemma auto_flip_won (st : GameState) (src_ref : PileKind × Nat) :
    (auto_flip st src_ref).1.won = st.won := by
  unfold auto_flip
  repeat' split
  all_goals simp [set_pile_won]

/-- `on_card_drag_released` never clears a won flag. -/
lemma on_card_drag_released_won_mono (st : GameState) (card : Card)
    (target_ref : Option (PileKind × Nat)) (h : st.won = true) :
    ((on_card_drag_released st card target_ref).1).won = true := by
  unfold on_card_drag_released
  repeat' split
  all_goals simp [auto_flip_won, set_pile_won, add_to_slot_won, check_win_won_mono, h]

/-- The engine operations a player can trigger after a deal, plus an
external rewrite of the foundations ("even if the foundations are emptied"). -/
inductive GameOp
  | stock_click
  | drag_release (card : Card) (target_ref : Option (PileKind × Nat))
  | run_check_win
  | set_foundations (fs : List Pile)

/-- Apply one operation to the game state. -/
def apply_op (st : GameState) : GameOp → GameState
  | GameOp.stock_click => on_stock_clicked st
  | GameOp.drag_release c t => (on_card_drag_released st c t).1
  | GameOp.run_check_win => check_win st
  | GameOp.set_foundations fs => { st with foundations := fs }

/-- Claim C4: `check_win` sets `won` exactly when every one of the 4
foundation piles holds 13 cards, it is a no-op once `won` holds, and `won`
is monotone under every later sequence of operations — stock clicks, drag
drops, further win checks, even external rewrites of the foundations. -/
theorem C4_check_win_exact_and_monotone :
    (∀ st : GameState, st.foundations.length = 4 →
      ((check_win st).won = true ↔
        (st.won = true ∨ ∀ f ∈ st.foundations, f.cards.length = 13))) ∧
    (∀ st : GameState, st.won = true → check_win st = st) ∧
    (∀ (st : GameState) (ops : List GameOp), st.won = true →
      (ops.foldl apply_op st).won = true) := by
  refine ⟨?_, ?_, ?_⟩
  · intro st _
    unfold check_win
    by_cases hw : st.won = true
    · simp [hw]
    · rw [if_neg hw]
      by_cases ha : ∀ f ∈ st.foundations, f.cards.length = 13
      · rw [if_pos (by simpa [List.all_eq_true, beq_iff_eq] using ha)]
        exact iff_of_true rfl (Or.inr ha)
      · rw [if_neg (by simpa [List.all_eq_true, beq_iff_eq] using ha)]
        refine iff_of_false hw ?_
        rintro (h1 | h2)
        · exact hw h1
        · exact ha h2
  · intro st h
    simp [check_win, h]
  · intro st ops h
    induction ops generalizing st with
    | nil => exact h
    | cons op rest ih =>
      refine ih (apply_op st op) ?_
      cases op with
      | stock_click => exact on_stock_clicked_won_mono st h
      | drag_release c t => exact on_card_drag_released_won_mono st c t h
      | run_check_win => exact check_win_won_mono st h
      | set_foundations fs => exact h

/-- A state with the 4 foundation piles (empty), used to witness C4. -/
def four_foundations_state : GameState :=
  GameState.mk []
    [⟨PileKind.foundation, 0, []⟩, ⟨PileKind.foundation, 1, []⟩,
     ⟨PileKind.foundation, 2, []⟩, ⟨PileKind.foundation, 3, []⟩]
    ⟨PileKind.stock, 0, []⟩ ⟨PileKind.waste, 0, []⟩ false

/-- The same state after winning, used to witness C4's monotonicity. -/
def won_example_state : GameState := { four_foundations_state with won := true }

/-- Witness for C4 at concrete states: the exact win condition on a 4-pile
foundation row, the no-op once won, and monotonicity across a stock click. -/
theorem C4_check_win_exact_and_monotone_witness :
    ((check_win four_foundations_state).won = true ↔
      (four_foundations_state.won = true ∨
        ∀ f ∈ four_foundations_state.foundations, f.cards.length = 13)) ∧
    check_win won_example_state = won_example_state ∧
    (([GameOp.stock_click].foldl apply_op won_example_state).won = true) :=
  ⟨C4_check_win_exact_and_monotone.1 four_foundations_state (by decide),
   C4_check_win_exact_and_monotone.2.1 won_example_state (by decide),
   C4_check_win_exact_and_monotone.2.2 won_example_state [GameOp.stock_click] (by decide)⟩

/-- The prefix strictly below the first occurrence does not contain the
element. -/
lemma not_mem_take_indexOf {α : Type} [DecidableEq α] (l : List α) (a : α) :
    a ∉ l.take (l.indexOf a) := by
  induction l with
  | nil => simp
  | cons b t ih =>
    by_cases hb : b = a
    · subst hb
      simp [List.indexOf_cons_self]
    · rw [List.indexOf_cons_ne _ hb, List.take_succ_cons]
      intro hmem
      rcases List.mem_cons.mp hmem with h1 | h1
      · exact hb h1.symm
      · exact ih h1

/-- Claim C6: `remove_cards_from` on a missing card returns the empty
sequence and leaves the pile unchanged; on a present card it removes and
returns the suffix from the card's (first) index up — in original relative
order, memberships cleared — and keeps the prefix below untouched.  The
operation is total (never raises). -/
theorem C6_remove_cards_from_splits (p : Pile) (card : Card) :
    (card ∉ p.cards → p.remove_cards_from card = ([], p)) ∧
    (card ∈ p.cards → ∃ pre suf, p.cards = pre ++ card :: suf ∧ card ∉ pre ∧
      p.remove_cards_from card =
        ((card :: suf).map (fun c => { c with currentPile := none }),
         { p with cards := pre })) := by
  constructor
  · intro hni
    simp [Pile.remove_cards_from, hni]
  · intro hmem
    refine ⟨p.cards.take (p.cards.indexOf card), p.cards.drop (p.cards.indexOf card + 1),
      ?_, ?_, ?_⟩
    · conv_lhs => rw [← List.take_append_drop (p.cards.indexOf card) p.cards]
      rw [drop_indexOf_eq_cons p.cards card hmem]
    · exact not_mem_take_indexOf p.cards card
    · simp only [Pile.remove_cards_from, hmem, ite_true]
      rw [drop_indexOf_eq_cons p.cards card hmem]

/-- A concrete two-card tableau pile used to witness C6. -/
def two_card_pile : Pile :=
  ⟨PileKind.tableau, 0,
   [⟨0, Suit.clubs, Rank.ace, false, some (PileKind.tableau, 0)⟩,
    ⟨1, Suit.hearts, Rank.n2, true, some (PileKind.tableau, 0)⟩]⟩

/-- Witness for C6 at a concrete pile: removing from a card not in the pile
is a no-op, and removing from the top card detaches exactly that card. -/
theorem C6_remove_cards_from_splits_witness :
    two_card_pile.remove_cards_from ⟨2, Suit.spades, Rank.n3, true, none⟩ =
      ([], two_card_pile) ∧
    (∃ pre suf,
      two_card_pile.cards =
        pre ++ (⟨1, Suit.hearts, Rank.n2, true, some (PileKind.tableau, 0)⟩ : Card) :: suf ∧
      (⟨1, Suit.hearts, Rank.n2, true, some (PileKind.tableau, 0)⟩ : Card) ∉ pre ∧
      two_card_pile.remove_cards_from ⟨1, Suit.hearts, Rank.n2, true, some (PileKind.tableau, 0)⟩ =
        (((⟨1, Suit.hearts, Rank.n2, true, some (PileKind.tableau, 0)⟩ : Card) :: suf).map
          (fun c => { c with currentPile := none }),
         { two_card_pile with cards := pre })) :=
  ⟨(C6_remove_cards_from_splits two_card_pile ⟨2, Suit.spades, Rank.n3, true, none⟩).1
      (by decide),
   (C6_remove_cards_from_splits two_card_pile
      ⟨1, Suit.hearts, Rank.n2, true, some (PileKind.tableau, 0)⟩).2 (by decide)⟩

/-- A tableau pile holding a face-up 5 of hearts with a face-DOWN 4 of spades
above it — the pair satisfies the color/rank checks, so the scan never looks
at the upper card's face. -/
def hidden_card_pile : Pile :=
  ⟨PileKind.tableau, 0,
   [⟨10, Suit.hearts, Rank.n5, true, some (PileKind.tableau, 0)⟩,
    ⟨11, Suit.spades, Rank.n4, false, some (PileKind.tableau, 0)⟩]⟩

/-- Claim C10: the tableau scan of `get_draggable_group_for` checks only
color alternation and rank descent of the cards above the grabbed card, never
their face-up state: in `hidden_card_pile` the returned group contains the
face-down 4 of spades. -/
theorem C10_group_can_contain_face_down_card :
    get_draggable_group_for hidden_card_pile
        ⟨10, Suit.hearts, Rank.n5, true, some (PileKind.tableau, 0)⟩ =
      some [⟨10, Suit.hearts, Rank.n5, true, some (PileKind.tableau, 0)⟩,
            ⟨11, Suit.spades, Rank.n4, false, some (PileKind.tableau, 0)⟩] ∧
    (⟨11, Suit.spades, Rank.n4, false, some (PileKind.tableau, 0)⟩ : Card).face_up = false := by
  constructor
  · decide
  · rfl

/-- Two pile slots resolve to the same pile object (stock and waste are
singletons, tableau and foundation slots are indexed). -/
def same_slot (r1 r2 : PileKind × Nat) : Prop :=
  r1.1 = r2.1 ∧ (r1.1 = PileKind.stock ∨ r1.1 = PileKind.waste ∨ r1.2 = r2.2)

instance same_slot_decidable (r1 r2 : PileKind × Nat) : Decidable (same_slot r1 r2) := by
  unfold same_slot
  infer_instance

lemma same_slot_symm {r1 r2 : PileKind × Nat} (h : same_slot r1 r2) : same_slot r2 r1 := by
  obtain ⟨h1, h2⟩ := h
  refine ⟨h1.symm, ?_⟩
  rcases h2 with h | h | h
  · exact Or.inl (h1.symm.trans h)
  · exact Or.inr (Or.inl (h1.symm.trans h))
  · exact Or.inr (Or.inr h.symm)

/-- Reading back the slot just written. -/
lemma get_set_same (st : GameState) (r : PileKind × Nat) (p q : Pile)
    (h : st.get_pile? r = some q) : (st.set_pile r p).get_pile? r = some p := by
  rcases r with ⟨k, i⟩
  cases k
  · obtain ⟨hlt, _⟩ := List.getElem?_eq_some.mp h
    simpa [GameState.get_pile?, GameState.set_pile] using
      List.getElem?_set_eq_of_lt p hlt
  · obtain ⟨hlt, _⟩ := List.getElem?_eq_some.mp h
    simpa [GameState.get_pile?, GameState.set_pile] using
      List.getElem?_set_eq_of_lt p hlt
  · rfl
  · rfl

/-- Writing one slot leaves a different slot unchanged. -/
lemma get_set_other (st : GameState) (r r' : PileKind × Nat) (p : Pile)
    (h : ¬ same_slot r' r) : (st.set_pile r' p).get_pile? r = st.get_pile? r := by
  rcases r with ⟨k, i⟩
  rcases r' with ⟨k', i'⟩
  by_cases hk : k' = k
  · subst hk
    have hne : i' ≠ i := by
      intro hii
      exact h ⟨rfl, Or.inr (Or.inr hii)⟩
    cases k'
    · simp [GameState.get_pile?, GameState.set_pile, List.getElem?_set_ne hne]
    · simp [GameState.get_pile?, GameState.set_pile, List.getElem?_set_ne hne]
    · exact absurd ⟨rfl, Or.inl rfl⟩ h
    · exact absurd ⟨rfl, Or.inr (Or.inl rfl)⟩ h
  · cases k' <;> cases k <;> simp_all [GameState.get_pile?, GameState.set_pile, same_slot]

/-- `check_win` leaves every pile slot unchanged. -/
lemma check_win_get_pile (st : GameState) (r : PileKind × Nat) :
    (check_win st).get_pile? r = st.get_pile? r := by
  rcases r with ⟨k, i⟩
  cases k <;>
    simp [GameState.get_pile?, check_win_tableau, check_win_foundations,
      check_win_stock, check_win_waste]

/-- Flipping the top card face-up makes the top card face-up. -/
lemma set_top_face_up_top (p : Pile) (t : Card) (h : p.top_card = some t) :
    p.set_top_face_up.top_card = some { t with face_up := true } := by
  unfold Pile.set_top_face_up
  rw [show p.cards.getLast? = some t from h]
  simp [Pile.top_card]

/-- A state poised for the Klondike reveal: the face-up 5 of hearts sits on a
face-down 9 of clubs in tableau 0, and tableau 1 offers the 6 of spades. -/
def flip_example_state : GameState :=
  GameState.mk
    [⟨PileKind.tableau, 0,
      [⟨0, Suit.clubs, Rank.n9, false, some (PileKind.tableau, 0)⟩,
       ⟨1, Suit.hearts, Rank.n5, true, some (PileKind.tableau, 0)⟩]⟩,
     ⟨PileKind.tableau, 1, [⟨2, Suit.spades, Rank.n6, true, some (PileKind.tableau, 1)⟩]⟩]
    [⟨PileKind.foundation, 0, []⟩, ⟨PileKind.foundation, 1, []⟩,
     ⟨PileKind.foundation, 2, []⟩, ⟨PileKind.foundation, 3, []⟩]
    ⟨PileKind.stock, 0, []⟩ ⟨PileKind.waste, 0, []⟩ false

/-- Counterexample to C8 as stated: on this accepted drop the trace is
`[accepted, win_check, flip]` — the reveal flip does NOT precede the
`check_win` re-run; the source runs `check_win` first. -/
theorem C8_flip_before_win_check_counterexample :
    (on_card_drag_released flip_example_state
        ⟨1, Suit.hearts, Rank.n5, true, some (PileKind.tableau, 0)⟩
        (some (PileKind.tableau, 1))).2 =
      [DropEvent.accepted, DropEvent.win_check, DropEvent.flip] ∧
    ¬ ((on_card_drag_released flip_example_state
        ⟨1, Suit.hearts, Rank.n5, true, some (PileKind.tableau, 0)⟩
        (some (PileKind.tableau, 1))).2.indexOf DropEvent.flip <
      (on_card_drag_released flip_example_state
        ⟨1, Suit.hearts, Rank.n5, true, some (PileKind.tableau, 0)⟩
        (some (PileKind.tableau, 1))).2.indexOf DropEvent.win_check) := by
  constructor
  · decide
  · decide

/-- Claim C8 (amended): for an accepted drop from a tableau source pile,
distinct from the target, that is non-empty afterwards with a face-down top
card, that card is flipped face-up — but the flip happens AFTER the
`check_win` re-run within the same call, as the trace
`[accepted, win_check, flip]` records. -/
theorem C8_accepted_drop_flips_after_win_check (st : GameState) (card : Card)
    (src_ref tref : PileKind × Nat) (src_pile target : Pile) (g0 : Card)
    (grest : List Card) (t : Card)
    (hcp : card.currentPile = some src_ref)
    (hsp : st.get_pile? src_ref = some src_pile)
    (hg : get_draggable_group_for src_pile card = some (g0 :: grest))
    (htp : st.get_pile? tref = some target)
    (hcan : can_stack_on g0 target = true)
    (hdiff : ¬ same_slot src_ref tref)
    (hkind : (src_pile.remove_cards_from card).2.kind = PileKind.tableau)
    (htop : (src_pile.remove_cards_from card).2.top_card = some t)
    (hface : t.face_up = false) :
    (on_card_drag_released st card (some tref)).2 =
      [DropEvent.accepted, DropEvent.win_check, DropEvent.flip] ∧
    (on_card_drag_released st card (some tref)).1.get_pile? src_ref =
      some (src_pile.remove_cards_from card).2.set_top_face_up ∧
    ((src_pile.remove_cards_from card).2.set_top_face_up).top_card =
      some { t with face_up := true } := by
  have h1 : (st.set_pile src_ref (src_pile.remove_cards_from card).2).get_pile? tref =
      some target := by
    rw [get_set_other st tref src_ref _ hdiff, htp]
  have h2 : add_to_slot (st.set_pile src_ref (src_pile.remove_cards_from card).2) tref
        (src_pile.remove_cards_from card).1 =
      (st.set_pile src_ref (src_pile.remove_cards_from card).2).set_pile tref
        (target.add_cards (src_pile.remove_cards_from card).1) := by
    unfold add_to_slot
    rw [h1]
  have h3 : (check_win (add_to_slot
        (st.set_pile src_ref (src_pile.remove_cards_from card).2) tref
        (src_pile.remove_cards_from card).1)).get_pile? src_ref =
      some (src_pile.remove_cards_from card).2 := by
    rw [check_win_get_pile, h2,
      get_set_other _ src_ref tref _ (fun hss => hdiff (same_slot_symm hss)),
      get_set_same st src_ref _ src_pile hsp]
  have h4 : auto_flip (check_win (add_to_slot
        (st.set_pile src_ref (src_pile.remove_cards_from card).2) tref
        (src_pile.remove_cards_from card).1)) src_ref =
      ((check_win (add_to_slot
          (st.set_pile src_ref (src_pile.remove_cards_from card).2) tref
          (src_pile.remove_cards_from card).1)).set_pile src_ref
        (src_pile.remove_cards_from card).2.set_top_face_up, true) := by
    unfold auto_flip
    rw [h3]
    simp [hkind, htop, hface]
  have h5 : (on_card_drag_released st card (some tref)) =
      ((check_win (add_to_slot
          (st.set_pile src_ref (src_pile.remove_cards_from card).2) tref
          (src_pile.remove_cards_from card).1)).set_pile src_ref
        (src_pile.remove_cards_from card).2.set_top_face_up,
       [DropEvent.accepted, DropEvent.win_check, DropEvent.flip]) := by
    simp only [on_card_drag_released, hcp, hsp, hg, htp, hcan, if_true, h4]
    rfl
  refine ⟨by rw [h5], ?_, set_top_face_up_top _ t htop⟩
  rw [h5]
  exact get_set_same _ src_ref _ _ h3

/-- The covered face-down card of `flip_example_state`. -/
def nine_clubs : Card := ⟨0, Suit.clubs, Rank.n9, false, some (PileKind.tableau, 0)⟩

/-- The dragged face-up card of `flip_example_state`. -/
def five_hearts : Card := ⟨1, Suit.hearts, Rank.n5, true, some (PileKind.tableau, 0)⟩

/-- The source tableau pile of `flip_example_state`. -/
def flip_src_pile : Pile := ⟨PileKind.tableau, 0, [nine_clubs, five_hearts]⟩

/-- The target tableau pile of `flip_example_state`. -/
def flip_target_pile : Pile :=
  ⟨PileKind.tableau, 1, [⟨2, Suit.spades, Rank.n6, true, some (PileKind.tableau, 1)⟩]⟩

/-- Witness for the amended C8 at the concrete reveal state: dropping the 5
of hearts on the 6 of spades yields the trace `[accepted, win_check, flip]`
and the uncovered 9 of clubs ends face-up. -/
theorem C8_accepted_drop_flips_after_win_check_witness :
    (on_card_drag_released flip_example_state five_hearts
        (some (PileKind.tableau, 1))).2 =
      [DropEvent.accepted, DropEvent.win_check, DropEvent.flip] ∧
    (on_card_drag_released flip_example_state five_hearts
        (some (PileKind.tableau, 1))).1.get_pile? (PileKind.tableau, 0) =
      some (flip_src_pile.remove_cards_from five_hearts).2.set_top_face_up ∧
    ((flip_src_pile.remove_cards_from five_hearts).2.set_top_face_up).top_card =
      some { nine_clubs with face_up := true } :=
  C8_accepted_drop_flips_after_win_check flip_example_state five_hearts
    (PileKind.tableau, 0) (PileKind.tableau, 1) flip_src_pile flip_target_pile
    five_hearts [] nine_clubs
    (by decide) (by decide) (by decide) (by decide) (by decide) (by decide)
    (by decide) (by decide) (by decide)

/-- A stable numbering for the created card objects (object identity). -/
def card_id (s : Suit) (r : Rank) : Nat := SUITS.indexOf s * 13 + RANKS.indexOf r

/-- `CardItem(s, r, path, self, face_up=False)` as created by `build_deck`. -/
def mk_card_item (s : Suit) (r : Rank) : Card :=
  ⟨card_id s r, s, r, false, none⟩

/-- `GameController.build_deck`: for every suit and rank in order, create a
face-down card unless its SVG asset is missing (those are "skipped
defensively"), then shuffle.  `assets` models `os.path.exists(svg_path_for)`;
`shuffle` models `random.shuffle` for the process's current global random
state. -/
def build_deck (assets : Suit → Rank → Bool) (shuffle : List Card → List Card) : List Card :=
  shuffle (SUITS.foldl (fun acc s =>
    RANKS.foldl (fun acc2 r =>
      if assets s r then acc2 ++ [mk_card_item s r] else acc2) acc) [])

/-- The 52 (suit, rank) combinations in creation order. -/
def full_enumeration : List (Suit × Rank) :=
  (SUITS.map (fun s => RANKS.map (fun r => (s, r)))).flatten

/-- The inner rank loop of `build_deck` appends the asset-available cards of
one suit. -/
lemma build_deck_rank_loop (assets : Suit → Rank → Bool) (s : Suit) :
    ∀ (rs : List Rank) (acc : List Card),
      rs.foldl (fun acc2 r =>
          if assets s r then acc2 ++ [mk_card_item s r] else acc2) acc =
        acc ++ (rs.filter (fun r => assets s r)).map (fun r => mk_card_item s r) := by
  intro rs
  induction rs with
  | nil => intro acc; simp
  | cons r t ih =>
    intro acc
    rcases hr : assets s r with _ | _
    · simp [List.foldl_cons, hr, ih]
    · simp [List.foldl_cons, hr, ih]

/-- One suit's block of the filtered enumeration is that suit's filtered
rank list. -/
lemma build_deck_suit_block (assets : Suit → Rank → Bool) (s : Suit) :
    ((RANKS.map (fun r => (s, r))).filter (fun p => assets p.1 p.2)).map
        (fun p => mk_card_item p.1 p.2) =
      (RANKS.filter (fun r => assets s r)).map (fun r => mk_card_item s r) := by
  rw [List.filter_map, List.map_map]
  rfl

/-- `build_deck` is the supplied shuffle applied to the asset-filtered
standard enumeration. -/
lemma build_deck_eq (assets : Suit → Rank → Bool) (shuffle : List Card → List Card) :
    build_deck assets shuffle =
      shuffle ((full_enumeration.filter (fun p => assets p.1 p.2)).map
        (fun p => mk_card_item p.1 p.2)) := by
  unfold build_deck full_enumeration
  congr 1
  simp only [SUITS, List.map_cons, List.map_nil, List.flatten_cons, List.flatten_nil,
    List.foldl_cons, List.foldl_nil, build_deck_rank_loop, List.nil_append,
    List.append_nil, List.filter_append, List.map_append, List.append_assoc,
    build_deck_suit_block]

/-- Counterexample to C9 as stated: with the same shuffle function (the same
seed), removing one card's art asset changes the built deck — the seeded
random source is NOT the only source of non-determinism, the asset
environment is another. -/
theorem C9_seed_only_determinism_counterexample :
    build_deck (fun _ _ => true) id ≠
      build_deck (fun s r => !(s == Suit.clubs && r == Rank.ace)) id ∧
    (build_deck (fun _ _ => true) id).length = 52 ∧
    (build_deck (fun s r => !(s == Suit.clubs && r == Rank.ace)) id).length = 51 := by
  refine ⟨?_, ?_, ?_⟩ <;> decide

/-- Claim C9 (amended): deck building is deterministic given the random
source AND the asset environment: `build_deck` is a pure function of the
injected shuffle and of which (suit, rank) assets exist — it is exactly the
shuffle applied to the asset-filtered 52-card enumeration, so identical
seeds with identical asset availability reproduce identical decks, while
asset availability is a second environmental input. -/
theorem C9_deck_deterministic_given_shuffle_and_assets
    (assets : Suit → Rank → Bool) (shuffle : List Card → List Card) :
    build_deck assets shuffle =
      shuffle ((full_enumeration.filter (fun p => assets p.1 p.2)).map
        (fun p => mk_card_item p.1 p.2)) :=
  build_deck_eq assets shuffle

/-- The 7 empty tableau piles `setup_piles` creates. -/
def tableau_init : List Pile :=
  (List.range 7).map (fun i => ⟨PileKind.tableau, i, []⟩)

/-- The 4 empty foundation piles `setup_piles` creates. -/
def foundations_init : List Pile :=
  (List.range 4).map (fun i => ⟨PileKind.foundation, i, []⟩)

/-- The inner row loop of `GameController.deal` for one column: deal `n`
remaining rows (row counter `row`, deals to column `col`), stopping early
when the deck runs out (`if idx >= len(self.deck): break`).  Each card is set
face-up exactly when `row == col` before being added. -/
def deal_rows : Nat → Nat → Nat → Pile → List Card → Pile × List Card
  | _, _, 0, pile, deck => (pile, deck)
  | col, row, n + 1, pile, deck =>
    match deck with
    | [] => (pile, [])
    | c :: rest =>
      deal_rows col (row + 1) n
        (pile.add_cards [{ c with face_up := decide (row = col) }]) rest

/-- The outer column loop of `deal`: column `col` gets `col + 1` rows. -/
def deal_cols : Nat → List Pile → List Card → List Pile × List Card
  | _, [], deck => ([], deck)
  | col, p :: ps, deck =>
    let r1 := deal_rows col 0 (col + 1) p deck
    let r2 := deal_cols (col + 1) ps r1.2
    (r1.1 :: r2.1, r2.2)

/-- `GameController.deal`: deal the deck across the tableau columns, then
bulk-move the remainder to the stock (`if remaining: stock.add_cards(...)`). -/
def deal (st : GameState) (deck : List Card) : GameState :=
  let r := deal_cols 0 st.tableau deck
  let stock' := if r.2.isEmpty then st.stock else st.stock.add_cards r.2
  { st with tableau := r.1, stock := stock' }

/-- `GameController.new_game`: fresh piles (`setup_piles`), `won = False`,
build the deck, deal. -/
def new_game (assets : Suit → Rank → Bool) (shuffle : List Card → List Card) : GameState :=
  deal
    (GameState.mk tableau_init foundations_init
      ⟨PileKind.stock, 0, []⟩ ⟨PileKind.waste, 0, []⟩ false)
    (build_deck assets shuffle)

/-- Every card of every pile, in the `all_piles` order
(`[stock, waste] + foundations + tableau`). -/
def all_cards (st : GameState) : List Card :=
  (([st.stock, st.waste] ++ st.foundations ++ st.tableau).map Pile.cards).flatten

/-- The face-up marking the row loop applies, as a standalone map. -/
def mark_rows : Nat → Nat → List Card → List Card
  | _, _, [] => []
  | col, row, c :: cs =>
    { c with face_up := decide (row = col) } :: mark_rows col (row + 1) cs

lemma add_cards_nil (p : Pile) : p.add_cards [] = p := by
  simp [Pile.add_cards]

lemma add_cards_append (p : Pile) (a b : List Card) :
    (p.add_cards a).add_cards b = p.add_cards (a ++ b) := by
  simp [Pile.add_cards]

/-- Closed form of the row loop while the deck lasts. -/
lemma deal_rows_spec (col : Nat) :
    ∀ (n row : Nat) (pile : Pile) (deck : List Card), n ≤ deck.length →
      deal_rows col row n pile deck =
        (pile.add_cards (mark_rows col row (deck.take n)), deck.drop n) := by
  intro n
  induction n with
  | zero =>
    intro row pile deck h
    simp [deal_rows, mark_rows, add_cards_nil]
  | succ m ih =>
    intro row pile deck h
    match deck with
    | [] => simp at h
    | c :: rest =>
      show deal_rows col (row + 1) m
          (pile.add_cards [{ c with face_up := decide (row = col) }]) rest = _
      rw [ih (row + 1) _ rest (by simpa using h)]
      rw [add_cards_append]
      simp [mark_rows, List.take_succ_cons, List.drop_succ_cons]

lemma mark_rows_length (col : Nat) :
    ∀ (row : Nat) (l : List Card), (mark_rows col row l).length = l.length := by
  intro row l
  induction l generalizing row with
  | nil => rfl
  | cons c cs ih => simp [mark_rows, ih]

lemma mark_rows_pairs (col : Nat) :
    ∀ (row : Nat) (l : List Card),
      (mark_rows col row l).map (fun c => (c.suit, c.rank)) =
        l.map (fun c => (c.suit, c.rank)) := by
  intro row l
  induction l generalizing row with
  | nil => rfl
  | cons c cs ih => simp [mark_rows, ih]

lemma mark_rows_face_up (col : Nat) :
    ∀ (l : List Card) (row j : Nat) (hj : j < (mark_rows col row l).length),
      ((mark_rows col row l).get ⟨j, hj⟩).face_up = decide (row + j = col) := by
  intro l
  induction l with
  | nil => intro row j hj; simp [mark_rows] at hj
  | cons c cs ih =>
    intro row j hj
    cases j with
    | zero => simp [mark_rows]
    | succ k =>
      have hk : k < (mark_rows col (row + 1) cs).length := by
        simpa [mark_rows] using hj
      have := ih (row + 1) k hk
      simp only [mark_rows, List.get_cons_succ]
      rw [this, show row + 1 + k = row + (k + 1) by omega]

/-- Unfolding the seven-column deal on a full 52-card deck: column `i` takes
`i + 1` cards starting at offset `i * (i + 1) / 2`, marked face-up on its
last row, and `deck[28:]` remains. -/
lemma deal_cols_seven (deck : List Card) (h : deck.length = 52) :
    deal_cols 0 tableau_init deck =
      ([(⟨PileKind.tableau, 0, []⟩ : Pile).add_cards (mark_rows 0 0 (deck.take 1)),
        (⟨PileKind.tableau, 1, []⟩ : Pile).add_cards (mark_rows 1 0 ((deck.drop 1).take 2)),
        (⟨PileKind.tableau, 2, []⟩ : Pile).add_cards (mark_rows 2 0 ((deck.drop 3).take 3)),
        (⟨PileKind.tableau, 3, []⟩ : Pile).add_cards (mark_rows 3 0 ((deck.drop 6).take 4)),
        (⟨PileKind.tableau, 4, []⟩ : Pile).add_cards (mark_rows 4 0 ((deck.drop 10).take 5)),
        (⟨PileKind.tableau, 5, []⟩ : Pile).add_cards (mark_rows 5 0 ((deck.drop 15).take 6)),
        (⟨PileKind.tableau, 6, []⟩ : Pile).add_cards (mark_rows 6 0 ((deck.drop 21).take 7))],
       deck.drop 28) := by
  rw [show tableau_init =
    [⟨PileKind.tableau, 0, []⟩, ⟨PileKind.tableau, 1, []⟩, ⟨PileKind.tableau, 2, []⟩,
     ⟨PileKind.tableau, 3, []⟩, ⟨PileKind.tableau, 4, []⟩, ⟨PileKind.tableau, 5, []⟩,
     ⟨PileKind.tableau, 6, []⟩] from rfl]
  have e1 : deal_rows 0 0 1 ⟨PileKind.tableau, 0, []⟩ deck =
      ((⟨PileKind.tableau, 0, []⟩ : Pile).add_cards (mark_rows 0 0 (deck.take 1)),
       deck.drop 1) :=
    deal_rows_spec 0 1 0 _ deck (by simp [h])
  have e2 : deal_rows 1 0 2 ⟨PileKind.tableau, 1, []⟩ (deck.drop 1) =
      ((⟨PileKind.tableau, 1, []⟩ : Pile).add_cards (mark_rows 1 0 ((deck.drop 1).take 2)),
       deck.drop 3) := by
    rw [deal_rows_spec 1 2 0 _ (deck.drop 1) (by simp [h])]
    norm_num [List.drop_drop]
  have e3 : deal_rows 2 0 3 ⟨PileKind.tableau, 2, []⟩ (deck.drop 3) =
      ((⟨PileKind.tableau, 2, []⟩ : Pile).add_cards (mark_rows 2 0 ((deck.drop 3).take 3)),
       deck.drop 6) := by
    rw [deal_rows_spec 2 3 0 _ (deck.drop 3) (by simp [h])]
    norm_num [List.drop_drop]
  have e4 : deal_rows 3 0 4 ⟨PileKind.tableau, 3, []⟩ (deck.drop 6) =
      ((⟨PileKind.tableau, 3, []⟩ : Pile).add_cards (mark_rows 3 0 ((deck.drop 6).take 4)),
       deck.drop 10) := by
    rw [deal_rows_spec 3 4 0 _ (deck.drop 6) (by simp [h])]
    norm_num [List.drop_drop]
  have e5 : deal_rows 4 0 5 ⟨PileKind.tableau, 4, []⟩ (deck.drop 10) =
      ((⟨PileKind.tableau, 4, []⟩ : Pile).add_cards (mark_rows 4 0 ((deck.drop 10).take 5)),
       deck.drop 15) := by
    rw [deal_rows_spec 4 5 0 _ (deck.drop 10) (by simp [h])]
    norm_num [List.drop_drop]
  have e6 : deal_rows 5 0 6 ⟨PileKind.tableau, 5, []⟩ (deck.drop 15) =
      ((⟨PileKind.tableau, 5, []⟩ : Pile).add_cards (mark_rows 5 0 ((deck.drop 15).take 6)),
       deck.drop 21) := by
    rw [deal_rows_spec 5 6 0 _ (deck.drop 15) (by simp [h])]
    norm_num [List.drop_drop]
  have e7 : deal_rows 6 0 7 ⟨PileKind.tableau, 6, []⟩ (deck.drop 21) =
      ((⟨PileKind.tableau, 6, []⟩ : Pile).add_cards (mark_rows 6 0 ((deck.drop 21).take 7)),
       deck.drop 28) := by
    rw [deal_rows_spec 6 7 0 _ (deck.drop 21) (by simp [h])]
    norm_num [List.drop_drop]
  simp only [deal_cols, e1, e2, e3, e4, e5, e6, e7]

lemma foundations_init_eq :
    foundations_init =
      [⟨PileKind.foundation, 0, []⟩, ⟨PileKind.foundation, 1, []⟩,
       ⟨PileKind.foundation, 2, []⟩, ⟨PileKind.foundation, 3, []⟩] := rfl

/-- The seven dealt segments concatenate to the first 28 cards. -/
lemma segments_take_28 (l : List Card) :
    l.take 1 ++ ((l.drop 1).take 2 ++ ((l.drop 3).take 3 ++ ((l.drop 6).take 4 ++
      ((l.drop 10).take 5 ++ ((l.drop 15).take 6 ++ (l.drop 21).take 7))))) =
    l.take 28 := by
  rw [show (21 : Nat) = 15 + 6 from rfl, ← List.drop_drop, ← List.take_add]
  simp only [Nat.reduceAdd]
  rw [show (15 : Nat) = 10 + 5 from rfl, ← List.drop_drop, ← List.take_add]
  simp only [Nat.reduceAdd]
  rw [show (10 : Nat) = 6 + 4 from rfl, ← List.drop_drop, ← List.take_add]
  simp only [Nat.reduceAdd]
  rw [show (6 : Nat) = 3 + 3 from rfl, ← List.drop_drop, ← List.take_add]
  simp only [Nat.reduceAdd]
  rw [show (3 : Nat) = 1 + 2 from rfl, ← List.drop_drop, ← List.take_add]
  simp only [Nat.reduceAdd]
  rw [← List.take_add]

/-- One dealt tableau column: `col + 1` cards, face-up exactly on the last. -/
lemma column_spec (col : Nat) (seg : List Card) (hseg : seg.length = col + 1) :
    ((⟨PileKind.tableau, col, []⟩ : Pile).add_cards (mark_rows col 0 seg)).cards.length =
      col + 1 ∧
    ∀ j, ∀ hj : j <
        ((⟨PileKind.tableau, col, []⟩ : Pile).add_cards (mark_rows col 0 seg)).cards.length,
      ((((⟨PileKind.tableau, col, []⟩ : Pile).add_cards
          (mark_rows col 0 seg)).cards.get ⟨j, hj⟩).face_up) = decide (j = col) := by
  constructor
  · simp [Pile.add_cards, mark_rows_length, hseg]
  · intro j hj
    have hj' : j < (mark_rows col 0 seg).length := by
      simpa [Pile.add_cards] using hj
    have h0 := mark_rows_face_up col seg 0 j hj'
    simp only [Nat.zero_add] at h0
    simp only [Pile.add_cards, List.nil_append, List.get_eq_getElem, List.getElem_map]
    simp only [List.get_eq_getElem] at h0
    simpa using h0

/-- The (suit, rank) pairs of a freshly dealt state, in `all_piles` order,
are the deck's pairs with the stock remainder first. -/
lemma dealt_state_pairs (D : List Card) :
    (all_cards (GameState.mk
      [(⟨PileKind.tableau, 0, []⟩ : Pile).add_cards (mark_rows 0 0 (D.take 1)),
       (⟨PileKind.tableau, 1, []⟩ : Pile).add_cards (mark_rows 1 0 ((D.drop 1).take 2)),
       (⟨PileKind.tableau, 2, []⟩ : Pile).add_cards (mark_rows 2 0 ((D.drop 3).take 3)),
       (⟨PileKind.tableau, 3, []⟩ : Pile).add_cards (mark_rows 3 0 ((D.drop 6).take 4)),
       (⟨PileKind.tableau, 4, []⟩ : Pile).add_cards (mark_rows 4 0 ((D.drop 10).take 5)),
       (⟨PileKind.tableau, 5, []⟩ : Pile).add_cards (mark_rows 5 0 ((D.drop 15).take 6)),
       (⟨PileKind.tableau, 6, []⟩ : Pile).add_cards (mark_rows 6 0 ((D.drop 21).take 7))]
      foundations_init
      ((⟨PileKind.stock, 0, []⟩ : Pile).add_cards (D.drop 28))
      ⟨PileKind.waste, 0, []⟩ false)).map (fun c => (c.suit, c.rank)) =
    (D.drop 28).map (fun c => (c.suit, c.rank)) ++
      (D.take 28).map (fun c => (c.suit, c.rank)) := by
  have hsg : (D.take 28).map (fun c => (c.suit, c.rank)) =
      (D.take 1).map (fun c => (c.suit, c.rank)) ++
      (((D.drop 1).take 2).map (fun c => (c.suit, c.rank)) ++
      (((D.drop 3).take 3).map (fun c => (c.suit, c.rank)) ++
      (((D.drop 6).take 4).map (fun c => (c.suit, c.rank)) ++
      (((D.drop 10).take 5).map (fun c => (c.suit, c.rank)) ++
      (((D.drop 15).take 6).map (fun c => (c.suit, c.rank)) ++
       ((D.drop 21).take 7).map (fun c => (c.suit, c.rank))))))) := by
    rw [← segments_take_28 D]
    simp [List.map_append]
  rw [hsg]
  simp [all_cards, Pile.add_cards, mark_rows_pairs, List.map_map, List.map_append,
    foundations_init_eq, Function.comp_def]

/-- Counterexample to C7 as stated: `build_deck` skips cards whose art asset
is missing, so in an environment without the ace-of-clubs asset a completed
deal holds only 51 cards — asset availability does affect engine state. -/
theorem C7_missing_asset_counterexample :
    (all_cards (new_game (fun s r => !(s == Suit.clubs && r == Rank.ace)) id)).length = 51 ∧
    ¬ (all_cards (new_game
        (fun s r => !(s == Suit.clubs && r == Rank.ace)) id)).length = 52 := by
  constructor <;> decide

/-- Claim C7: after a completed `new_game` deal — with every card-art asset
present, so the defensive skip never fires, and any permutation shuffle —
exactly the 52 distinct (suit, rank) cards exist across all piles, tableau
column `i` holds `i + 1` cards with only the last face-up, the stock holds
24 face-down cards preserving the shuffled deck order, and the waste and all
4 foundations are empty. -/
theorem C7_new_game_deal_layout (assets : Suit → Rank → Bool)
    (shuffle : List Card → List Card)
    (hsh : ∀ l : List Card, (shuffle l).Perm l)
    (ha : ∀ s r, assets s r = true) :
    ((all_cards (new_game assets shuffle)).map (fun c => (c.suit, c.rank))).Perm
        full_enumeration ∧
    (all_cards (new_game assets shuffle)).length = 52 ∧
    (new_game assets shuffle).tableau.length = 7 ∧
    (∀ i, ∀ hi : i < (new_game assets shuffle).tableau.length,
      ((new_game assets shuffle).tableau.get ⟨i, hi⟩).cards.length = i + 1 ∧
      ∀ j, ∀ hj : j < ((new_game assets shuffle).tableau.get ⟨i, hi⟩).cards.length,
        (((new_game assets shuffle).tableau.get ⟨i, hi⟩).cards.get ⟨j, hj⟩).face_up =
          decide (j = i)) ∧
    (new_game assets shuffle).stock.cards.length = 24 ∧
    (∀ c ∈ (new_game assets shuffle).stock.cards, c.face_up = false) ∧
    (new_game assets shuffle).stock.cards.map (fun c => (c.suit, c.rank)) =
      ((build_deck assets shuffle).drop 28).map (fun c => (c.suit, c.rank)) ∧
    (new_game assets shuffle).waste.cards = [] ∧
    (∀ f ∈ (new_game assets shuffle).foundations, f.cards = []) := by
  have hfilter : full_enumeration.filter (fun p => assets p.1 p.2) = full_enumeration :=
    List.filter_eq_self.mpr (fun p _ => by simp [ha p.1 p.2])
  have hD : build_deck assets shuffle =
      shuffle (full_enumeration.map (fun p => mk_card_item p.1 p.2)) := by
    rw [build_deck_eq, hfilter]
  have hperm : (build_deck assets shuffle).Perm
      (full_enumeration.map (fun p => mk_card_item p.1 p.2)) := by
    rw [hD]
    exact hsh _
  have hlen : (build_deck assets shuffle).length = 52 := by
    rw [hperm.length_eq, List.length_map]
    decide
  have hfd : ∀ c ∈ build_deck assets shuffle, c.face_up = false := by
    intro c hc
    rcases List.mem_map.mp (hperm.mem_iff.mp hc) with ⟨p, _, rfl⟩
    rfl
  have hdc := deal_cols_seven (build_deck assets shuffle) hlen
  have hnonempty : ((build_deck assets shuffle).drop 28).isEmpty = false := by
    have h24 : ((build_deck assets shuffle).drop 28).length = 24 := by
      simp [hlen]
    rcases hE : (build_deck assets shuffle).drop 28 with _ | ⟨c, t⟩
    · rw [hE] at h24
      simp at h24
    · rfl
  have hng : new_game assets shuffle = GameState.mk
      [(⟨PileKind.tableau, 0, []⟩ : Pile).add_cards
         (mark_rows 0 0 ((build_deck assets shuffle).take 1)),
       (⟨PileKind.tableau, 1, []⟩ : Pile).add_cards
         (mark_rows 1 0 (((build_deck assets shuffle).drop 1).take 2)),
       (⟨PileKind.tableau, 2, []⟩ : Pile).add_cards
         (mark_rows 2 0 (((build_deck assets shuffle).drop 3).take 3)),
       (⟨PileKind.tableau, 3, []⟩ : Pile).add_cards
         (mark_rows 3 0 (((build_deck assets shuffle).drop 6).take 4)),
       (⟨PileKind.tableau, 4, []⟩ : Pile).add_cards
         (mark_rows 4 0 (((build_deck assets shuffle).drop 10).take 5)),
       (⟨PileKind.tableau, 5, []⟩ : Pile).add_cards
         (mark_rows 5 0 (((build_deck assets shuffle).drop 15).take 6)),
       (⟨PileKind.tableau, 6, []⟩ : Pile).add_cards
         (mark_rows 6 0 (((build_deck assets shuffle).drop 21).take 7))]
      foundations_init
      ((⟨PileKind.stock, 0, []⟩ : Pile).add_cards ((build_deck assets shuffle).drop 28))
      ⟨PileKind.waste, 0, []⟩ false := by
    unfold new_game deal
    simp only [hdc, hnonempty, Bool.false_eq_true, if_false]
  rw [hng]
  refine ⟨?_, ?_, rfl, ?_, ?_, ?_, ?_, rfl, ?_⟩
  · -- the 52 (suit, rank) pairs across all piles are exactly the enumeration
    rw [dealt_state_pairs (build_deck assets shuffle)]
    refine List.Perm.trans List.perm_append_comm ?_
    rw [← List.map_append, List.take_append_drop]
    refine List.Perm.trans (hperm.map (fun c => (c.suit, c.rank))) ?_
    have hid : (full_enumeration.map (fun p => mk_card_item p.1 p.2)).map
        (fun c => (c.suit, c.rank)) = full_enumeration := by
      simp [List.map_map, mk_card_item, Function.comp_def, Prod.mk.eta]
    rw [hid]
  · -- 52 cards in total
    have hlm := congrArg List.length (dealt_state_pairs (build_deck assets shuffle))
    simp only [List.length_map, List.length_append, List.length_take, List.length_drop,
      hlen] at hlm
    simpa using hlm
  · -- tableau columns
    intro i hi
    have hi7 : i < 7 := by simpa using hi
    interval_cases i
    · simpa using column_spec 0 ((build_deck assets shuffle).take 1) (by simp [hlen])
    · simpa using column_spec 1 (((build_deck assets shuffle).drop 1).take 2)
        (by simp [hlen])
    · simpa using column_spec 2 (((build_deck assets shuffle).drop 3).take 3)
        (by simp [hlen])
    · simpa using column_spec 3 (((build_deck assets shuffle).drop 6).take 4)
        (by simp [hlen])
    · simpa using column_spec 4 (((build_deck assets shuffle).drop 10).take 5)
        (by simp [hlen])
    · simpa using column_spec 5 (((build_deck assets shuffle).drop 15).take 6)
        (by simp [hlen])
    · simpa using column_spec 6 (((build_deck assets shuffle).drop 21).take 7)
        (by simp [hlen])
  · -- 24 stock cards
    simp [Pile.add_cards, hlen]
  · -- all face-down in the stock
    intro c hc
    simp only [Pile.add_cards, List.nil_append, List.mem_map] at hc
    rcases hc with ⟨d, hd, rfl⟩
    simpa using hfd d (List.drop_subset 28 _ hd)
  · -- the stock preserves the shuffled order
    simp [Pile.add_cards, List.map_map, Function.comp_def]
  · -- foundations empty
    intro f hf
    simp only [foundations_init_eq, List.mem_cons, List.not_mem_nil, or_false] at hf
    rcases hf with rfl | rfl | rfl | rfl <;> rfl

/-- Witness for C7 with every asset present and the identity shuffle: the
deal holds the 52 pairs, 7 tableau columns, a 24-card stock, an empty
waste. -/
theorem C7_new_game_deal_layout_witness :
    ((all_cards (new_game (fun _ _ => true) id)).map (fun c => (c.suit, c.rank))).Perm
        full_enumeration ∧
    (new_game (fun _ _ => true) id).tableau.length = 7 ∧
    (new_game (fun _ _ => true) id).stock.cards.length = 24 ∧
    (new_game (fun _ _ => true) id).waste.cards = [] :=
  ⟨(C7_new_game_deal_layout (fun _ _ => true) id
      (fun l => List.Perm.refl l) (fun _ _ => rfl)).1,
   (C7_new_game_deal_layout (fun _ _ => true) id
      (fun l => List.Perm.refl l) (fun _ _ => rfl)).2.2.1,
   (C7_new_game_deal_layout (fun _ _ => true) id
      (fun l => List.Perm.refl l) (fun _ _ => rfl)).2.2.2.2.1,
   (C7_new_game_deal_layout (fun _ _ => true) id
      (fun l => List.Perm.refl l) (fun _ _ => rfl)).2.2.2.2.2.2.2.1⟩

end Solitaire
